import Mathlib

namespace PetDefaceProof

/-!
Verification of the petdeface orchestration core.

This file gives a shallow embedding of the subject-data pairing, the
per-subject workflow graph assembly (`init_single_subject_wf`), the output
reconciliation (`wrap_up_defacing`, `move_defaced_images`), the synthetic
anatomical provider (`noanat.py`) and the PET time-weighted average
(`pet.py`) of the petdeface package, together with theorems about the
naming conventions, deduplication of anatomical tasks, exclusion handling,
cleanup and error aggregation that the specification claims.

Python strings are modelled as `String`/`List Char`; filesystem paths are
modelled either as plain strings or as lists of path components; the
filesystem itself, where needed, is a set of file and directory paths.
-/

/-! ### Python string primitives

`listContains`/`strContains` model the Python substring test `pat in s`;
`replaceFuel`/`replaceList`/`pyReplace` model `s.replace(pat, rep)`
(leftmost, non-overlapping, all occurrences).  `replaceFuel` carries a fuel
argument so that the definition is structurally recursive (and hence
evaluates inside `decide`); one unit of fuel is spent per examined
position, so fuel `s.length` always suffices. -/

def listContains (pat : List Char) : List Char → Bool
  | [] => pat.isEmpty
  | c :: cs => pat.isPrefixOf (c :: cs) || listContains pat cs

/-- Model of the Python substring test `pat in s`. -/
def strContains (s pat : String) : Bool := listContains pat.data s.data

def replaceFuel (pat rep : List Char) : Nat → List Char → List Char
  | 0, s => s
  | _ + 1, [] => []
  | fuel + 1, c :: cs =>
    if pat ≠ [] ∧ pat.isPrefixOf (c :: cs) then
      rep ++ replaceFuel pat rep fuel (List.drop (pat.length - 1) cs)
    else
      c :: replaceFuel pat rep fuel cs

def replaceList (pat rep s : List Char) : List Char := replaceFuel pat rep s.length s

/-- Model of Python `s.replace(pat, rep)`.  (The empty-pattern case, which
Python treats by interspersing, never occurs in the modelled code and is
mapped to the identity.) -/
def pyReplace (s pat rep : String) : String := ⟨replaceList pat.data rep.data s.data⟩

/-! ### Defaced-filename round trip (mideface.py `out_file`, petdeface.py `wrap_up_defacing`) -/

/-- nipype output filename for the Mideface/ApplyMideface `out_file` trait
(mideface.py: `name_source="in_file"`, `name_template="%s_defaced"`,
`keep_extension=True`): the base name of the input with `_defaced`
appended, keeping the extension. -/
def defacedFilename (base ext : String) : String := base ++ "_defaced" ++ ext

/-- The pairing rule of `wrap_up_defacing` (petdeface.py):
`(defaced.filename).replace("_defaced.", ".") == raw.filename`. -/
def mappingPaired (defacedName rawName : String) : Bool :=
  pyReplace defacedName "_defaced." "." == rawName

/-! ### Entity extraction and anatomical task assembly (init_single_subject_wf)

`init_single_subject_wf` derives entity strings from file paths with
`re.search("<tag>-[^_|\/]*", s).group(0)`: the leftmost occurrence of the
literal tag extended greedily by characters other than `_`, `|`, `/`.
`findTagged` models this search. -/

def entChar (ch : Char) : Bool := ch ≠ '_' && ch ≠ '|' && ch ≠ '/'

def findTagged (tag : List Char) : List Char → Option (List Char)
  | [] => none
  | c :: cs =>
    if tag.isPrefixOf (c :: cs) then
      some (tag ++ List.takeWhile entChar (List.drop tag.length (c :: cs)))
    else findTagged tag cs

/-- `re.search("ses-[^_|\/]*", s)` with `.group(0)`, as used on T1w and PET
paths. -/
def sesSearch (s : String) : Option String :=
  (findTagged ("ses-".data) s.data).map (fun l => ⟨l⟩)

/-- The `anat_string` of init_single_subject_wf: `sub-<id>_<ses_id>` when
the anatomical path mentions a session, `sub-<id>` otherwise. -/
def anatString (subjectId t1wFile : String) : String :=
  match sesSearch t1wFile with
  | some ses => "sub-" ++ subjectId ++ "_" ++ ses
  | none => "sub-" ++ subjectId

/-- `is_template_from_pet` of init_single_subject_wf:
`use_template_anat == "pet" and "desc-totallyat1w" in str(t1w_file)`. -/
def isTemplateFromPet (useTemplateAnat t1wFile : String) : Bool :=
  useTemplateAnat == "pet" && strContains t1wFile "desc-totallyat1w"

/-- One anatomical defacing task as assembled by `init_single_subject_wf`:
the anatomical file, its entity string, whether the mask-only variant was
chosen (the `is_template_from_pet` special case, which publishes the
facemask but no defaced volume), and the nipype workflow name. -/
structure T1wTask where
  t1wFile : String
  anatStr : String
  maskOnly : Bool
  wfName : String
deriving DecidableEq

def mkT1wTask (subjectId useTemplateAnat t1wFile : String) : T1wTask :=
  { t1wFile := t1wFile
    anatStr := anatString subjectId t1wFile
    maskOnly := isTemplateFromPet useTemplateAnat t1wFile
    wfName := "t1w_" ++ anatString subjectId t1wFile ++ "_wf" }

/-- The anatomical-defacing loop of `init_single_subject_wf`: one task per
element of `set(subject_data.values())`, i.e. per unique anatomical path. -/
def buildT1wTasks (subjectId useTemplateAnat : String) (values : List String) :
    List T1wTask :=
  values.dedup.map (mkT1wTask subjectId useTemplateAnat)

/-! ### Synthetic anatomical filenames (noanat.copy_default_anat_to_subject) -/

/-- The target anatomical filename written by
`copy_default_anat_to_subject` into the subject's `anat` directory —
`sub-<id>_T1w.nii.gz`, for every mode including `"pet"`. -/
def copyTargetNiiName (extractedId : String) : String :=
  "sub-" ++ extractedId ++ "_T1w.nii.gz"

/-- In `"pet"` mode the averaged volume is first saved inside a temporary
directory under this name — the only filename carrying the descriptive
tag — and then copied onto `copyTargetNiiName`. -/
def petAverageTempName (extractedId : String) : String :=
  "sub-" ++ extractedId ++ "_desc-totallyat1w.nii.gz"

/-! ### PET chain workflow names (init_single_subject_wf)

The PET chain workflow name is
`f"pet_{pet_string}{tracer_info}{run_id}_wf"` with
`pet_string = f"sub-{subject_id}"` possibly extended by `_<ses-..>` and
`_<rec-..>`, `tracer_info` either empty or `_<trc-..>`, and `run_id`
either empty or `_<run-..>`, each entity obtained by
`re.search("<tag>-[^_|\/]*", str(pet_file))`. -/

/-- An optional entity match rendered into the name: nothing, or an
underscore followed by the full match. -/
def optUnd : Option (List Char) → List Char
  | none => []
  | some m => '_' :: m

/-- The part of the PET chain workflow name after `pet_sub-<subject_id>`:
the optional session, reconstruction, tracer and run matches, then `_wf`. -/
def encodeTail (m1 m2 m3 m4 : Option (List Char)) : List Char :=
  optUnd m1 ++ (optUnd m2 ++ (optUnd m3 ++ (optUnd m4 ++ "_wf".data)))

def petWfNameL (subjectId f : List Char) : List Char :=
  "pet_sub-".data ++ (subjectId ++
    encodeTail (findTagged ("ses-".data) f) (findTagged ("rec-".data) f)
      (findTagged ("trc-".data) f) (findTagged ("run-".data) f))

/-- The nipype workflow name `pet_{pet_string}{tracer_info}{run_id}_wf`
built by `init_single_subject_wf` for one PET acquisition file. -/
def petWfName (subjectId petFile : String) : String :=
  ⟨petWfNameL subjectId.data petFile.data⟩

/-- The session/reconstruction/tracer/run entity matches extracted from a
PET file path — exactly the data the workflow name is built from. -/
def petEntities (f : String) :
    Option (List Char) × Option (List Char) × Option (List Char) × Option (List Char) :=
  (findTagged ("ses-".data) f.data, findTagged ("rec-".data) f.data,
    findTagged ("trc-".data) f.data, findTagged ("run-".data) f.data)

/-- Shape of a `findTagged` result: the tag followed by characters drawn
from the entity alphabet (no `_`, `|`, `/`). -/
def TagVal (tag : List Char) : Option (List Char) → Prop
  | none => True
  | some m => ∃ v, m = tag ++ v ∧ ∀ c ∈ v, entChar c = true

/-! A small parser recovers the four optional entity matches from the name
tail, which shows the encoding is injective. -/

def grabVal : List Char → List Char × List Char
  | [] => ([], [])
  | c :: cs =>
    if c = '_' then ([], c :: cs)
    else ((c :: (grabVal cs).1), (grabVal cs).2)

def parseTag (tag : List Char) (s : List Char) : Option (List Char) × List Char :=
  if ('_' :: tag).isPrefixOf s then
    (some (tag ++ (grabVal (List.drop (tag.length + 1) s)).1),
      (grabVal (List.drop (tag.length + 1) s)).2)
  else (none, s)

def decodeTail (s : List Char) :
    Option (List Char) × Option (List Char) × Option (List Char) × Option (List Char) :=
  ((parseTag ("ses-".data) s).1,
    (parseTag ("rec-".data) (parseTag ("ses-".data) s).2).1,
    (parseTag ("trc-".data) (parseTag ("rec-".data) (parseTag ("ses-".data) s).2).2).1,
    (parseTag ("run-".data)
      (parseTag ("trc-".data) (parseTag ("rec-".data) (parseTag ("ses-".data) s).2).2).2).1)

/-! ### Missing-anatomical aggregation (deface, init_single_subject_wf)

`init_single_subject_wf` walks `subject_data.items()` and raises
`FileNotFoundError` on the FIRST PET file whose anatomical value is the
empty sentinel (when no synthetic-anatomical mode is set); `deface`
catches one such error per subject, collects the messages, and raises a
single aggregated `FileNotFoundError` before `petdeface_wf.run(...)`. -/

/-- The message of the per-PET-file `FileNotFoundError`. -/
def missingT1wMsg (petImage : String) : String :=
  "Could not find t1w image for pet image " ++ petImage

/-- The precondition loop of `init_single_subject_wf` over the subject's
PET-to-anatomical pairs: the first empty-sentinel value raises. -/
def checkMissingT1w (useTemplateAnat : Bool) :
    List (String × String) → Option String
  | [] => none
  | (petImage, t1wImage) :: rest =>
    if t1wImage = "" ∧ useTemplateAnat = false then some (missingT1wMsg petImage)
    else checkMissingT1w useTemplateAnat rest

/-- The per-subject loop of `deface`: each failing subject contributes the
message of its (single) `FileNotFoundError`. -/
def defaceMissingFileErrors (useTemplateAnat : Bool)
    (subjects : List (String × List (String × String))) : List String :=
  subjects.filterMap (fun s => checkMissingT1w useTemplateAnat s.2)

/-- Outcome of `deface`: either the aggregated error, raised before
`petdeface_wf.run(...)` executes any task, or a completed run of the
per-subject workflows. -/
inductive DefaceOutcome
  | errorBeforeRun (errs : List String)
  | ran (workflows : Nat)
deriving DecidableEq

/-- The aggregation logic of `deface` (validation and licence checks,
which precede it, are outside this model). -/
def deface (useTemplateAnat : Bool)
    (subjects : List (String × List (String × String))) : DefaceOutcome :=
  let errs := defaceMissingFileErrors useTemplateAnat subjects
  if errs = [] then .ran subjects.length else .errorBeforeRun errs

/-! ### Exclusion computations (init_single_subject_wf vs PetDeface._build_exclusion_indexer) -/

/-- `sessions_to_exclude` of `init_single_subject_wf`:
`set(all) - (set(all) & set(session_label)) | set(session_label_exclude)`
when an include list is given, otherwise the explicit exclude list.
Lists stand for the Python sets; only membership matters. -/
def sessionsToExcludeWF (allSessions sessionLabel sessionLabelExclude : List String) :
    List String :=
  if sessionLabel ≠ [] then
    (allSessions.filter (fun s => ! sessionLabel.contains s)) ++ sessionLabelExclude
  else sessionLabelExclude

/-- `excluded_sessions` of `PetDeface._build_exclusion_indexer`: the
explicit exclusions, plus — when an include list is given — every session
not in the include list after stripping the prefix with
`ses.replace("ses-", "")`. -/
def excludedSessionsIndexer (allSessions sessionLabel sessionLabelExclude : List String) :
    List String :=
  if sessionLabel ≠ [] then
    sessionLabelExclude ++
      (allSessions.filter
        (fun s => ! (sessionLabel.map (fun l => pyReplace l "ses-" "")).contains s))
  else sessionLabelExclude

/-! ### Output reconciliation control flow (wrap_up_defacing)

Filesystem side effects of `wrap_up_defacing`, in program order.  The
copying phases of the adjacent and inplace branches are abstracted as
single effects: the claims under analysis only inspect which phases run
under which placement mode.  `final_destination` is a genuine Python
local, assigned only in the `adjacent` and `inplace` branches but read by
the stray-file sweep and the final log line in every branch. -/

inductive FsEffect
  | rmtreeOutputDir (p : String)
  | mkdirOutputDir (p : String)
  | copyRawTree (dest : String)
  | moveDefaced (dest : String)
  | copyMasksAndReg (dest : String)
  | removeExtraneousDerivatives
  | sweepLeftoverDefaced (dest : String)
deriving DecidableEq

inductive PyErr
  | valueErrorPlacement
  | unboundLocalFinalDestination
deriving DecidableEq

structure WrapUpResult where
  effects : List FsEffect
  outcome : Option PyErr
deriving DecidableEq

/-- `wrap_up_defacing(path_to_dataset, output_dir, placement,
remove_existing, ...)`.  `outputDirExists` says whether the output
directory exists beforehand; `debugEnvSet` whether `PETDEFACE_DEBUG` is
set (to anything non-empty); `petdefacDebugTrue` whether the differently
spelt `PETDEFAC_DEBUG` equals `"true"` (it guards the inplace-branch
derivative removal). -/
def wrapUpDefacing (pathToDataset : String) (outputDir : Option String)
    (placement : String) (removeExisting : Bool) (outputDirExists : Bool)
    (debugEnvSet : Bool) (petdefacDebugTrue : Bool) : WrapUpResult :=
  let effects0 : List FsEffect :=
    match outputDir with
    | some od =>
      if od ≠ pathToDataset ∧ removeExisting then
        (if outputDirExists then [.rmtreeOutputDir od] else []) ++ [.mkdirOutputDir od]
      else []
    | none => []
  let branch : Option (List FsEffect × Option String) :=
    if placement = "adjacent" then
      let finalDest :=
        if outputDir = none ∨ outputDir = some pathToDataset ∨
            outputDir = some (pathToDataset ++ "/derivatives/petdeface") then
          pathToDataset ++ "_defaced"
        else outputDir.getD ""
      some ([.copyRawTree finalDest, .moveDefaced finalDest, .copyMasksAndReg finalDest],
        some finalDest)
    else if placement = "inplace" then
      some ([.moveDefaced pathToDataset] ++
          (if petdefacDebugTrue then [] else [.removeExtraneousDerivatives]),
        some pathToDataset)
    else if placement = "derivatives" then
      some ([], none)
    else none
  match branch with
  | none => { effects := effects0, outcome := some .valueErrorPlacement }
  | some (effects1, finalDest) =>
    if debugEnvSet then
      match finalDest with
      | some _ => { effects := effects0 ++ effects1, outcome := none }
      | none =>
        { effects := effects0 ++ effects1, outcome := some .unboundLocalFinalDestination }
    else
      match finalDest with
      | some d =>
        { effects := effects0 ++ effects1 ++ [.sweepLeftoverDefaced d], outcome := none }
      | none =>
        { effects := effects0 ++ effects1, outcome := some .unboundLocalFinalDestination }

/-! ### Synthetic anatomical cleanup (noanat.copy_default_anat_to_subject, remove_default_anat)

Paths are lists of components; the filesystem is the set of existing
files and directories. -/

structure Fs where
  files : List (List String)
  dirs : List (List String)
deriving DecidableEq

structure CreatedItems where
  subjectDir : List String
  anatDir : List String
  createdDirs : List (List String)
  createdFiles : List (List String)
deriving DecidableEq

/-- The direct children of a directory (`dir.iterdir()`). -/
def dirChildren (fs : Fs) (d : List String) : List (List String) :=
  (fs.files ++ fs.dirs).filter (fun p => d.isPrefixOf p && p.length == d.length + 1)

/-- `copy_default_anat_to_subject(bids_dir, subject_id, ...)`: requires
the dataset and subject directories, creates the `anat` directory when
absent, writes `sub-<id>_T1w.nii.gz` and `sub-<id>_T1w.json`
(`shutil.copy2` overwrites silently), and returns the created-items
record.  The content source (template copy versus PET self-average) does
not affect the filesystem shape. -/
def copyDefaultAnatToSubject (bidsDir : List String) (extractedId : String)
    (fs : Fs) : Option (Fs × CreatedItems) :=
  if bidsDir ∈ fs.dirs then
    let subjectDir := bidsDir ++ ["sub-" ++ extractedId]
    if subjectDir ∈ fs.dirs then
      let anatDir := subjectDir ++ ["anat"]
      let createdDirs := if anatDir ∈ fs.dirs then [] else [anatDir]
      let targetNii := anatDir ++ [copyTargetNiiName extractedId]
      let targetJson := anatDir ++ ["sub-" ++ extractedId ++ "_T1w.json"]
      some ({ files := fs.files ++ [targetNii, targetJson],
              dirs := fs.dirs ++ createdDirs },
        { subjectDir := subjectDir, anatDir := anatDir,
          createdDirs := createdDirs, createdFiles := [targetNii, targetJson] })
    else none
  else none

/-- The removal loop shared by both modes of `remove_default_anat`:
unlink each listed file if it exists, then remove each listed directory
if it exists and has no remaining entries. -/
def removeCreated (createdFiles createdDirs : List (List String)) (fs : Fs) : Fs :=
  let files1 := fs.files.filter (fun f => ! createdFiles.contains f)
  let fs1 : Fs := { files := files1, dirs := fs.dirs }
  { files := files1,
    dirs := fs.dirs.filter
      (fun d => ! (createdDirs.contains d && (dirChildren fs1 d).isEmpty)) }

/-- `remove_default_anat(bids_dir, created_items=...)`. -/
def removeDefaultAnatCreated (ci : CreatedItems) (fs : Fs) : Fs :=
  removeCreated ci.createdFiles ci.createdDirs fs

/-- `remove_default_anat(bids_dir, subject_id=...)`: re-derives the
target paths — note the `.nii` extension, while the copy wrote `.nii.gz`
— keeps those that exist, marks the anat directory for removal when
nothing else remains in it, and runs the removal loop. -/
def removeDefaultAnatSubjectId (bidsDir : List String) (extractedId : String)
    (fs : Fs) : Option Fs :=
  if bidsDir ∈ fs.dirs then
    let subjectDir := bidsDir ++ ["sub-" ++ extractedId]
    if subjectDir ∈ fs.dirs then
      let anatDir := subjectDir ++ ["anat"]
      let targetNii := anatDir ++ ["sub-" ++ extractedId ++ "_T1w.nii"]
      let targetJson := anatDir ++ ["sub-" ++ extractedId ++ "_T1w.json"]
      let createdFiles := (if targetNii ∈ fs.files then [targetNii] else []) ++
        (if targetJson ∈ fs.files then [targetJson] else [])
      let createdDirs :=
        if anatDir ∈ fs.dirs ∧
            (dirChildren fs anatDir).filter (fun p => ! createdFiles.contains p) = [] then
          [anatDir]
        else []
      some (removeCreated createdFiles createdDirs fs)
    else none
  else none

/-! ### Time-weighted PET average (pet.WeightedAverage._run_interface)

`np.trapz` acts voxel-wise along the last (time) axis of the 4-D PET
array; the model below follows one voxel's time series.  The exact
framework of rational numbers stands in for IEEE doubles: the claims
concern which formula is computed, not rounding. -/

/-- `np.trapz(y, x)`: the trapezoidal rule over sample positions `x`. -/
def trapz : List ℚ → List ℚ → ℚ
  | y0 :: y1 :: ys, x0 :: x1 :: xs =>
    (x1 - x0) * (y0 + y1) / 2 + trapz (y1 :: ys) (x1 :: xs)
  | _, _ => 0

/-- `mid_frames = frames_start + frames_duration / 2` (element-wise). -/
def midFrames (framesStart framesDuration : List ℚ) : List ℚ :=
  List.zipWith (fun s d => s + d / 2) framesStart framesDuration

/-- `WeightedAverage._run_interface`, per voxel:
`np.trapz(data, x=mid_frames) / (mid_frames[-1] - mid_frames[0])`. -/
def weightedAverageVoxel (data framesStart framesDuration : List ℚ) : ℚ :=
  trapz data (midFrames framesStart framesDuration) /
    ((midFrames framesStart framesDuration).getLastD 0 -
      (midFrames framesStart framesDuration).headD 0)

/-- Claim-side definition, following the claim's words: the total
duration of the acquisition, from the start of the first frame to the end
of the last frame. -/
def totalAcquisitionDuration (framesStart framesDuration : List ℚ) : ℚ :=
  (framesStart.getLastD 0 + framesDuration.getLastD 0) - framesStart.headD 0

/-- Claim-side weighted average: the trapezoid integral over mid-frame
times divided by the total acquisition duration. -/
def claimWeightedAverageVoxel (data framesStart framesDuration : List ℚ) : ℚ :=
  trapz data (midFrames framesStart framesDuration) /
    totalAcquisitionDuration framesStart framesDuration

/-! ### move_defaced_images (petdeface.py)

Paths are component lists.  `os.path.commonpath` of two absolute paths is
their longest common component prefix; `defaced.path.replace(common_path,
final_destination)` substitutes the destination for that prefix; the
`"_defaced." -> "."` replacement cannot cross a path separator, so it is
applied per component; finally the `derivatives` and `petdeface`
components are dropped. -/

def commonPathComps : List String → List String → List String
  | a :: as, b :: bs => if a = b then a :: commonPathComps as bs else []
  | _, _ => []

/-- The destination path computed by `move_defaced_images` for one
defaced/raw pair. -/
def destPath (finalDest defaced raw : List String) : List String :=
  ((finalDest ++ defaced.drop (commonPathComps defaced raw).length).map
      (fun comp => pyReplace comp "_defaced." ".")).filter
    (fun part => part ≠ "derivatives" && part ≠ "petdeface")

/-- Result of the copy loop: the files existing afterwards, and whether
an `os.remove` on a missing source raised (only possible with
`move_files=True`). -/
structure MoveResult where
  files : List (List String)
  errored : Bool
deriving DecidableEq

/-- The copy loop of `move_defaced_images`: for each pair, if the defaced
source exists it is copied to its destination; with `move_files=True` the
source is then removed (raising if it never existed). -/
def moveDefacedLoop (finalDest : List String) (moveFiles : Bool) :
    List ((List String) × (List String)) → List (List String) → MoveResult
  | [], fs => { files := fs, errored := false }
  | (defaced, raw) :: rest, fs =>
    let fs1 := if defaced ∈ fs then fs ++ [destPath finalDest defaced raw] else fs
    if moveFiles then
      if defaced ∈ fs1 then
        moveDefacedLoop finalDest moveFiles rest (fs1.filter (fun p => p ≠ defaced))
      else { files := fs1, errored := true }
    else moveDefacedLoop finalDest moveFiles rest fs1

/-- `move_defaced_images(mapping_dict, final_destination, move_files)`. -/
def moveDefacedImages (mapping : List ((List String) × (List String)))
    (finalDest : List String) (moveFiles : Bool)
    (fs : List (List String)) : MoveResult :=
  moveDefacedLoop finalDest moveFiles mapping fs

/-! ## Theorems -/

theorem listContains_spec (pat s : List Char) :
    listContains pat s = true ↔ pat <:+: s := by
  induction s with
  | nil =>
    simp [listContains, List.isEmpty_iff]
  | cons c cs ih =>
    simp only [listContains, Bool.or_eq_true, List.isPrefixOf_iff_prefix, ih,
      List.infix_cons_iff]

theorem strContains_spec (s pat : String) :
    strContains s pat = true ↔ pat.data <:+: s.data :=
  listContains_spec pat.data s.data

theorem replaceFuel_of_no_occ (pat rep : List Char) (fuel : Nat) (s : List Char)
    (hfuel : s.length ≤ fuel) (h : ¬ pat <:+: s) :
    replaceFuel pat rep fuel s = s := by
  induction fuel generalizing s with
  | zero => rfl
  | succ fuel ih =>
    match s with
    | [] => rfl
    | c :: cs =>
      have hnp : ¬ (pat ≠ [] ∧ pat.isPrefixOf (c :: cs) = true) := by
        rintro ⟨-, hp⟩
        exact h ( List.isPrefixOf_iff_prefix.mp hp).isInfix
      rw [replaceFuel, if_neg hnp]
      have hcs : ¬ pat <:+: cs := fun hc => h (List.infix_cons hc)
      have hlen : cs.length ≤ fuel := by
        simpa [Nat.succ_le_succ_iff] using hfuel
      rw [ih cs hlen hcs]

theorem replaceFuel_append (pat rep : List Char) (hpat : pat ≠ []) :
    ∀ (a : List Char) (fuel : Nat) (b : List Char),
    a.length + 1 ≤ fuel →
    (∀ a₁ a₂ : List Char, a = a₁ ++ a₂ → a₂ ≠ [] → ¬ pat <+: (a₂ ++ pat ++ b)) →
    replaceFuel pat rep fuel (a ++ pat ++ b) =
      a ++ rep ++ replaceFuel pat rep (fuel - a.length - 1) b := by
  intro a
  induction a with
  | nil =>
    intro fuel b hfuel H
    match fuel, hfuel with
    | fuel + 1, _ =>
      have hs : ([] : List Char) ++ pat ++ b = pat ++ b := by simp
      rw [hs]
      match pat, hpat with
      | p :: ps, _ =>
        have hpre : (p :: ps).isPrefixOf (p :: ps ++ b) = true :=
          List.isPrefixOf_iff_prefix.mpr (List.prefix_append _ _)
        have hcons : p :: ps ++ b = p :: (ps ++ b) := rfl
        rw [hcons, replaceFuel, if_pos ⟨List.cons_ne_nil p ps, by rw [← hcons]; exact hpre⟩]
        have hdrop : List.drop ((p :: ps).length - 1) (ps ++ b) = b := by
          have h := @List.drop_left' Char ps b ps.length rfl
          simp only [List.length_cons, Nat.add_sub_cancel]
          exact h
        rw [hdrop]
        simp
  | cons c a' ih =>
    intro fuel b hfuel H
    match fuel, hfuel with
    | fuel + 1, hfuel =>
      have hs : (c :: a') ++ pat ++ b = c :: (a' ++ pat ++ b) := by simp
      have hnotpre : ¬ pat <+: ((c :: a') ++ pat ++ b) :=
        H [] (c :: a') rfl (List.cons_ne_nil c a')
      have hnp : ¬ (pat ≠ [] ∧ pat.isPrefixOf (c :: (a' ++ pat ++ b)) = true) := by
        rintro ⟨-, hp⟩
        exact hnotpre (by rw [hs]; exact List.isPrefixOf_iff_prefix.mp hp)
      rw [hs, replaceFuel, if_neg hnp]
      have hfuel' : a'.length + 1 ≤ fuel := by
        simpa [Nat.succ_le_succ_iff, List.length_cons] using hfuel
      have H' : ∀ a₁ a₂ : List Char, a' = a₁ ++ a₂ → a₂ ≠ [] → ¬ pat <+: (a₂ ++ pat ++ b) := by
        intro a₁ a₂ hsplit hne
        exact H (c :: a₁) a₂ (by rw [hsplit]; rfl) hne
      rw [ih fuel b hfuel' H']
      simp [Nat.succ_sub_one]

theorem no_early_occ (base tail : List Char)
    (hb : ¬ ("_defaced".data <:+: base)) :
    ∀ a₁ a₂ : List Char, base = a₁ ++ a₂ → a₂ ≠ [] →
    ¬ ("_defaced.".data <+: (a₂ ++ "_defaced.".data ++ tail)) := by
  intro a₁ a₂ hsplit hne hpre
  have hlen9 : ("_defaced.".data).length = 9 := by decide
  have hassoc : a₂ ++ "_defaced.".data ++ tail = a₂ ++ ("_defaced.".data ++ tail) := by
    rw [List.append_assoc]
  rw [hassoc] at hpre
  have htake := List.prefix_iff_eq_take.mp hpre
  rw [hlen9, List.take_append_eq_append_take] at htake
  rcases le_or_lt 9 a₂.length with h9 | h9
  · -- the whole marker would sit inside `a₂`, hence inside `base`
    have hz : 9 - a₂.length = 0 := Nat.sub_eq_zero_of_le h9
    rw [hz, List.take_zero, List.append_nil] at htake
    have hpa : "_defaced.".data <+: a₂ := by
      rw [htake]
      exact List.take_prefix 9 a₂
    have hda : "_defaced".data <+: a₂ := by
      refine List.IsPrefix.trans ⟨['.'], by decide⟩ hpa
    obtain ⟨r, hr⟩ := hda
    exact hb ⟨a₁, r, by rw [hsplit, ← hr, List.append_assoc]⟩
  · -- the marker would start inside `a₂` and overlap a shifted copy of
    -- itself, which its concrete characters rule out
    have hta : List.take 9 a₂ = a₂ := List.take_of_length_le (Nat.le_of_lt h9)
    rw [hta, List.take_append_eq_append_take, hlen9] at htake
    have hz2 : 9 - a₂.length - 9 = 0 := by omega
    rw [hz2, List.take_zero, List.append_nil] at htake
    have hdk : List.drop a₂.length ("_defaced.".data) =
        List.take (9 - a₂.length) ("_defaced.".data) := by
      have := congrArg (List.drop a₂.length) htake
      rwa [List.drop_left] at this
    have h1 : 0 < a₂.length := List.length_pos.mpr hne
    obtain ⟨k, hk⟩ : ∃ k, a₂.length = k := ⟨a₂.length, rfl⟩
    rw [hk] at hdk h1 h9
    interval_cases k <;> exact absurd hdk (by decide)

/-- **C5**: defaced output filenames are the original filename with the
`_defaced` marker inserted immediately before the extension, and the
reconciliation round trip holds: replacing `"_defaced."` with `"."` in the
derivative filename recovers exactly the raw filename, so the
defaced-to-raw mapping of `wrap_up_defacing` pairs the two files.  The
hypotheses say that the extension begins with a dot and that the raw
filename does not itself contain the marker (a raw file containing
`defaced` in its name would already be misclassified as a derivative by
the code's own marker discipline). -/
theorem defaced_roundtrip (base ext : String)
    (hdot : ∃ tl : List Char, ext.data = '.' :: tl)
    (hb : strContains base "_defaced" = false)
    (he : strContains ext "_defaced" = false) :
    pyReplace (defacedFilename base ext) "_defaced." "." = base ++ ext ∧
    mappingPaired (defacedFilename base ext) (base ++ ext) = true := by
  obtain ⟨tl, htl⟩ := hdot
  have hbinf : ¬ ("_defaced".data <:+: base.data) := by
    intro h
    rw [(strContains_spec base "_defaced").mpr h] at hb
    exact Bool.noConfusion hb
  have heinf : ¬ ("_defaced".data <:+: ext.data) := by
    intro h
    rw [(strContains_spec ext "_defaced").mpr h] at he
    exact Bool.noConfusion he
  have hsplitpat : "_defaced.".data = "_defaced".data ++ ['.'] := by decide
  have hdata : (defacedFilename base ext).data = base.data ++ "_defaced.".data ++ tl := by
    show (base ++ "_defaced" ++ ext).data = _
    rw [String.data_append, String.data_append, htl, hsplitpat, List.append_assoc,
      List.append_assoc, List.append_assoc]
    simp
  have hmain : replaceList "_defaced.".data ".".data (defacedFilename base ext).data =
      base.data ++ ".".data ++ tl := by
    rw [replaceList, hdata]
    have hfuel : base.data.length + 1 ≤ (base.data ++ "_defaced.".data ++ tl).length := by
      simp only [List.length_append, List.length_cons, List.length_nil]
      omega
    rw [replaceFuel_append "_defaced.".data ".".data (by decide) base.data _ tl hfuel
      (no_early_occ base.data tl hbinf)]
    have hrest : replaceFuel "_defaced.".data ".".data
        ((base.data ++ "_defaced.".data ++ tl).length - base.data.length - 1) tl = tl := by
      apply replaceFuel_of_no_occ
      · simp only [List.length_append, List.length_cons, List.length_nil]
        omega
      · rintro ⟨s, t, hst⟩
        refine heinf ⟨'.' :: s, '.' :: t, ?_⟩
        rw [htl, ← hst, hsplitpat]
        simp
    rw [hrest]
  refine ⟨?_, ?_⟩
  · apply String.ext
    show replaceList "_defaced.".data ".".data (defacedFilename base ext).data = (base ++ ext).data
    rw [hmain, String.data_append, htl]
    have : ".".data = ['.'] := rfl
    rw [this, List.append_assoc]
    rfl
  · have h1 : pyReplace (defacedFilename base ext) "_defaced." "." = base ++ ext := by
      apply String.ext
      show replaceList "_defaced.".data ".".data (defacedFilename base ext).data = (base ++ ext).data
      rw [hmain, String.data_append, htl]
      have : ".".data = ['.'] := rfl
      rw [this, List.append_assoc]
      rfl
    rw [mappingPaired, h1]
    exact beq_self_eq_true (base ++ ext)

/-- Witness for C5 at the anatomical file `sub-01_T1w.nii.gz`. -/
theorem defaced_roundtrip_witness :
    (∃ tl : List Char, (".nii.gz" : String).data = '.' :: tl) ∧
    strContains "sub-01_T1w" "_defaced" = false ∧
    strContains ".nii.gz" "_defaced" = false ∧
    (pyReplace (defacedFilename "sub-01_T1w" ".nii.gz") "_defaced." "." =
        "sub-01_T1w" ++ ".nii.gz" ∧
      mappingPaired (defacedFilename "sub-01_T1w" ".nii.gz")
        ("sub-01_T1w" ++ ".nii.gz") = true) :=
  ⟨⟨"nii.gz".data, by decide⟩, by decide, by decide,
    defaced_roundtrip "sub-01_T1w" ".nii.gz" ⟨"nii.gz".data, by decide⟩
      (by decide) (by decide)⟩

/-- **C2**: for every subject, the number of anatomical defacing tasks
built by `init_single_subject_wf` equals the number of distinct anatomical
paths among the values of the subject's PET-to-anatomical map, and each
anatomical path that occurs in the map owns exactly one task. -/
theorem anat_task_dedup (subjectId useTemplateAnat : String) (values : List String) :
    (buildT1wTasks subjectId useTemplateAnat values).length = values.toFinset.card ∧
    ∀ v : String,
      (buildT1wTasks subjectId useTemplateAnat values).countP (fun t => t.t1wFile == v) =
        if v ∈ values then 1 else 0 := by
  constructor
  · show (values.dedup.map _).length = _
    rw [List.length_map, List.card_toFinset]
  · intro v
    show (values.dedup.map _).countP _ = _
    rw [List.countP_map]
    have hcomp : ((fun t : T1wTask => t.t1wFile == v) ∘ mkT1wTask subjectId useTemplateAnat) =
        fun x => x == v := rfl
    rw [hcomp]
    exact List.count_dedup values v

/-- **C3** (code bug): with `use_template_anat="pet"` the tag
`desc-totallyat1w` is written only to the temporary filename; the file
registered in the subject's anat directory is the untagged
`sub-<id>_T1w.nii.gz`, so `is_template_from_pet` is false on it and the
graph builder assembles the ordinary full defacing task for the synthetic
self-average instead of the mask-only variant the claim describes. -/
theorem pet_average_tag_lost :
    strContains (petAverageTempName "01") "desc-totallyat1w" = true ∧
    strContains (copyTargetNiiName "01") "desc-totallyat1w" = false ∧
    isTemplateFromPet "pet" ("/data/sub-01/anat/" ++ copyTargetNiiName "01") = false ∧
    (mkT1wTask "01" "pet" ("/data/sub-01/anat/" ++ copyTargetNiiName "01")).maskOnly
      = false := by
  refine ⟨by decide, by decide, by decide, by decide⟩

theorem findTagged_shape (tag : List Char) (s : List Char) :
    TagVal tag (findTagged tag s) := by
  induction s with
  | nil => trivial
  | cons c cs ih =>
    rw [findTagged]
    by_cases h : tag.isPrefixOf (c :: cs) = true
    · rw [if_pos h]
      exact ⟨_, rfl, fun ch hch => List.mem_takeWhile_imp hch⟩
    · rw [if_neg h]
      exact ih

theorem grabVal_append (v r : List Char) (hv : ∀ c ∈ v, c ≠ '_') :
    grabVal (v ++ '_' :: r) = (v, '_' :: r) := by
  induction v with
  | nil => rfl
  | cons c v' ih =>
    have hc : c ≠ '_' := hv c (List.mem_cons_self c v')
    have ih' := ih (fun ch hch => hv ch (List.mem_cons_of_mem c hch))
    rw [List.cons_append, grabVal, if_neg hc, ih']

theorem parseTag_hit (tag v r : List Char) (hv : ∀ c ∈ v, c ≠ '_') :
    parseTag tag ('_' :: (tag ++ (v ++ '_' :: r))) = (some (tag ++ v), '_' :: r) := by
  have hpre : ('_' :: tag).isPrefixOf ('_' :: (tag ++ (v ++ '_' :: r))) = true := by
    rw [ List.isPrefixOf_iff_prefix]
    exact ⟨v ++ '_' :: r, by simp⟩
  have hdrop : List.drop (tag.length + 1) ('_' :: (tag ++ (v ++ '_' :: r))) = v ++ '_' :: r := by
    have : ('_' :: tag).length = tag.length + 1 := by simp
    rw [show '_' :: (tag ++ (v ++ '_' :: r)) = ('_' :: tag) ++ (v ++ '_' :: r) from rfl]
    rw [List.drop_left' this]
  rw [parseTag, if_pos hpre, hdrop, grabVal_append v r hv]

theorem parseTag_miss (tag s : List Char) (h : ¬ ('_' :: tag) <+: s) :
    parseTag tag s = (none, s) := by
  rw [parseTag, if_neg]
  intro hp
  exact h ( List.isPrefixOf_iff_prefix.mp hp)

theorem cons2_no_match {x a b : Char} {l m : List Char} (h : a ≠ b) :
    ¬ ((x :: a :: l) <+: (x :: b :: m)) := by
  rintro ⟨t, ht⟩
  simp only [List.cons_append, List.cons.injEq] at ht
  exact h ht.2.1

theorem cons3_no_match {x y a b : Char} {l m : List Char} (h : a ≠ b) :
    ¬ ((x :: y :: a :: l) <+: (x :: y :: b :: m)) := by
  rintro ⟨t, ht⟩
  simp only [List.cons_append, List.cons.injEq] at ht
  exact h ht.2.2.1

theorem entChar_ne_underscore {c : Char} (h : entChar c = true) : c ≠ '_' := by
  intro hc
  rw [hc] at h
  exact absurd h (by decide)

theorem parseTag_hit_rest (tag m rest : List Char)
    (h : TagVal tag (some m)) (hrest : ∃ t, rest = '_' :: t) :
    parseTag tag (optUnd (some m) ++ rest) = (some m, rest) := by
  obtain ⟨v, hm, hv⟩ := h
  obtain ⟨t, ht⟩ := hrest
  have hv' : ∀ c ∈ v, c ≠ '_' := fun c hc => entChar_ne_underscore (hv c hc)
  have hs : optUnd (some m) ++ rest = '_' :: (tag ++ (v ++ '_' :: t)) := by
    rw [hm, ht]
    simp [optUnd]
  rw [hs, parseTag_hit tag v t hv', ← hm, ← ht]

theorem parse_run_level (m4 : Option (List Char)) (h4 : TagVal ("run-".data) m4) :
    parseTag ("run-".data) (optUnd m4 ++ "_wf".data) = (m4, "_wf".data) := by
  cases m4 with
  | none =>
    rw [show optUnd none ++ "_wf".data = "_wf".data from rfl, parseTag_miss]
    exact cons2_no_match (by decide)
  | some m =>
    exact parseTag_hit_rest _ m _ h4 ⟨['w', 'f'], rfl⟩

theorem parse_trc_level (m3 m4 : Option (List Char))
    (h3 : TagVal ("trc-".data) m3) (h4 : TagVal ("run-".data) m4) :
    parseTag ("trc-".data) (optUnd m3 ++ (optUnd m4 ++ "_wf".data)) =
      (m3, optUnd m4 ++ "_wf".data) := by
  cases m3 with
  | none =>
    rw [show optUnd none ++ (optUnd m4 ++ "_wf".data) = optUnd m4 ++ "_wf".data from rfl,
      parseTag_miss]
    cases m4 with
    | none => exact cons2_no_match (by decide)
    | some m =>
      obtain ⟨v, hm, -⟩ := h4
      have hs : optUnd (some m) ++ "_wf".data =
          '_' :: 'r' :: ('u' :: 'n' :: '-' :: (v ++ "_wf".data)) := by
        rw [hm]
        simp [optUnd]
      rw [hs]
      exact cons2_no_match (by decide)
  | some m =>
    refine parseTag_hit_rest _ m _ h3 ?_
    cases m4 with
    | none => exact ⟨['w', 'f'], rfl⟩
    | some m' => exact ⟨_, rfl⟩

theorem parse_rec_level (m2 m3 m4 : Option (List Char))
    (h2 : TagVal ("rec-".data) m2) (h3 : TagVal ("trc-".data) m3)
    (h4 : TagVal ("run-".data) m4) :
    parseTag ("rec-".data) (optUnd m2 ++ (optUnd m3 ++ (optUnd m4 ++ "_wf".data))) =
      (m2, optUnd m3 ++ (optUnd m4 ++ "_wf".data)) := by
  cases m2 with
  | none =>
    rw [show optUnd none ++ (optUnd m3 ++ (optUnd m4 ++ "_wf".data)) =
        optUnd m3 ++ (optUnd m4 ++ "_wf".data) from rfl, parseTag_miss]
    cases m3 with
    | some m =>
      obtain ⟨v, hm, -⟩ := h3
      have hs : optUnd (some m) ++ (optUnd m4 ++ "_wf".data) =
          '_' :: 't' :: ('r' :: 'c' :: '-' :: (v ++ (optUnd m4 ++ "_wf".data))) := by
        rw [hm]
        simp [optUnd]
      rw [hs]
      exact cons2_no_match (by decide)
    | none =>
      rw [show optUnd none ++ (optUnd m4 ++ "_wf".data) = optUnd m4 ++ "_wf".data from rfl]
      cases m4 with
      | none => exact cons2_no_match (by decide)
      | some m =>
        obtain ⟨v, hm, -⟩ := h4
        have hs : optUnd (some m) ++ "_wf".data =
            '_' :: 'r' :: 'u' :: ('n' :: '-' :: (v ++ "_wf".data)) := by
          rw [hm]
          simp [optUnd]
        rw [hs]
        exact cons3_no_match (by decide)
  | some m =>
    refine parseTag_hit_rest _ m _ h2 ?_
    cases m3 with
    | some m' => exact ⟨_, rfl⟩
    | none =>
      cases m4 with
      | none => exact ⟨['w', 'f'], rfl⟩
      | some m' => exact ⟨_, rfl⟩

theorem parse_ses_level (m1 m2 m3 m4 : Option (List Char))
    (h1 : TagVal ("ses-".data) m1) (h2 : TagVal ("rec-".data) m2)
    (h3 : TagVal ("trc-".data) m3) (h4 : TagVal ("run-".data) m4) :
    parseTag ("ses-".data) (encodeTail m1 m2 m3 m4) =
      (m1, optUnd m2 ++ (optUnd m3 ++ (optUnd m4 ++ "_wf".data))) := by
  rw [encodeTail]
  cases m1 with
  | none =>
    rw [show optUnd none ++ (optUnd m2 ++ (optUnd m3 ++ (optUnd m4 ++ "_wf".data))) =
        optUnd m2 ++ (optUnd m3 ++ (optUnd m4 ++ "_wf".data)) from rfl, parseTag_miss]
    cases m2 with
    | some m =>
      obtain ⟨v, hm, -⟩ := h2
      have hs : optUnd (some m) ++ (optUnd m3 ++ (optUnd m4 ++ "_wf".data)) =
          '_' :: 'r' :: ('e' :: 'c' :: '-' :: (v ++ (optUnd m3 ++ (optUnd m4 ++ "_wf".data)))) := by
        rw [hm]
        simp [optUnd]
      rw [hs]
      exact cons2_no_match (by decide)
    | none =>
      rw [show optUnd none ++ (optUnd m3 ++ (optUnd m4 ++ "_wf".data)) =
          optUnd m3 ++ (optUnd m4 ++ "_wf".data) from rfl]
      cases m3 with
      | some m =>
        obtain ⟨v, hm, -⟩ := h3
        have hs : optUnd (some m) ++ (optUnd m4 ++ "_wf".data) =
            '_' :: 't' :: ('r' :: 'c' :: '-' :: (v ++ (optUnd m4 ++ "_wf".data))) := by
          rw [hm]
          simp [optUnd]
        rw [hs]
        exact cons2_no_match (by decide)
      | none =>
        rw [show optUnd none ++ (optUnd m4 ++ "_wf".data) = optUnd m4 ++ "_wf".data from rfl]
        cases m4 with
        | none => exact cons2_no_match (by decide)
        | some m =>
          obtain ⟨v, hm, -⟩ := h4
          have hs : optUnd (some m) ++ "_wf".data =
              '_' :: 'r' :: ('u' :: 'n' :: '-' :: (v ++ "_wf".data)) := by
            rw [hm]
            simp [optUnd]
          rw [hs]
          exact cons2_no_match (by decide)
  | some m =>
    refine parseTag_hit_rest _ m _ h1 ?_
    cases m2 with
    | some m' => exact ⟨_, rfl⟩
    | none =>
      cases m3 with
      | some m' => exact ⟨_, rfl⟩
      | none =>
        cases m4 with
        | none => exact ⟨['w', 'f'], rfl⟩
        | some m' => exact ⟨_, rfl⟩

/-- The name tail decodes back to the four entity matches: the encoding
used by the workflow names is injective on the extracted entities. -/
theorem decodeTail_encodeTail (m1 m2 m3 m4 : Option (List Char))
    (h1 : TagVal ("ses-".data) m1) (h2 : TagVal ("rec-".data) m2)
    (h3 : TagVal ("trc-".data) m3) (h4 : TagVal ("run-".data) m4) :
    decodeTail (encodeTail m1 m2 m3 m4) = (m1, m2, m3, m4) := by
  have e1 := parse_ses_level m1 m2 m3 m4 h1 h2 h3 h4
  have e2 := parse_rec_level m2 m3 m4 h2 h3 h4
  have e3 := parse_trc_level m3 m4 h3 h4
  have e4 := parse_run_level m4 h4
  rw [decodeTail, e1]
  simp only [e2, e3, e4]

theorem anatWfName_data (sid u f : String) :
    ((mkT1wTask sid u f).wfName).data =
      "t1w_sub-".data ++ (sid.data ++
        (optUnd (findTagged ("ses-".data) f.data) ++ "_wf".data)) := by
  show ("t1w_" ++ anatString sid f ++ "_wf").data = _
  rw [anatString, sesSearch]
  cases h : findTagged ("ses-".data) f.data with
  | none =>
    simp only [Option.map_none', String.data_append, optUnd, List.nil_append,
      List.append_assoc]
    rfl
  | some m =>
    simp only [Option.map_some', String.data_append, optUnd, List.append_assoc]
    rfl

/-- **C8** counterexample: two distinct anatomical files of the same
subject that differ only in their `run` entity receive identical
anatomical defacing workflow names, so name collisions are possible for
distinct input files of one run. -/
theorem anat_name_collision :
    ("/bids/sub-01/anat/sub-01_run-01_T1w.nii.gz" : String) ≠
        "/bids/sub-01/anat/sub-01_run-02_T1w.nii.gz" ∧
    (mkT1wTask "01" "" "/bids/sub-01/anat/sub-01_run-01_T1w.nii.gz").wfName =
      (mkT1wTask "01" "" "/bids/sub-01/anat/sub-01_run-02_T1w.nii.gz").wfName := by
  refine ⟨by decide, by decide⟩

/-- **C8** (amended): task and workflow names are deterministic in the
extracted subject/session/tracer/reconstruction/run entity matches, and
distinct extracted entities force distinct names: PET chain names differ
whenever the (ses, rec, trc, run) matches differ, and anatomical workflow
names differ whenever the session matches differ.  (Distinct files that
agree on every extracted entity collide, as the counterexample shows.) -/
theorem wf_names_distinct (subjectId useTemplateAnat f g : String) :
    (petEntities f ≠ petEntities g →
      petWfName subjectId f ≠ petWfName subjectId g) ∧
    (sesSearch f ≠ sesSearch g →
      (mkT1wTask subjectId useTemplateAnat f).wfName ≠
        (mkT1wTask subjectId useTemplateAnat g).wfName) := by
  constructor
  · intro hne heq
    apply hne
    have hdata := congrArg String.data heq
    rw [show (petWfName subjectId f).data = petWfNameL subjectId.data f.data from rfl,
      show (petWfName subjectId g).data = petWfNameL subjectId.data g.data from rfl,
      petWfNameL, petWfNameL] at hdata
    have h1 := List.append_cancel_left hdata
    have h2 := List.append_cancel_left h1
    have hdec := congrArg decodeTail h2
    rw [decodeTail_encodeTail _ _ _ _ (findTagged_shape _ _) (findTagged_shape _ _)
        (findTagged_shape _ _) (findTagged_shape _ _),
      decodeTail_encodeTail _ _ _ _ (findTagged_shape _ _) (findTagged_shape _ _)
        (findTagged_shape _ _) (findTagged_shape _ _)] at hdec
    rw [petEntities, petEntities]
    exact congrArg (fun q => (q.1, q.2.1, q.2.2.1, q.2.2.2)) hdec
  · intro hne heq
    apply hne
    have hdata := congrArg String.data heq
    rw [anatWfName_data, anatWfName_data] at hdata
    have h1 := List.append_cancel_left hdata
    have h2 := List.append_cancel_left h1
    have hf : encodeTail (findTagged ("ses-".data) f.data) none none none =
        optUnd (findTagged ("ses-".data) f.data) ++ "_wf".data := by
      simp [encodeTail, optUnd]
    have hg : encodeTail (findTagged ("ses-".data) g.data) none none none =
        optUnd (findTagged ("ses-".data) g.data) ++ "_wf".data := by
      simp [encodeTail, optUnd]
    rw [← hf, ← hg] at h2
    have hdec := congrArg decodeTail h2
    rw [decodeTail_encodeTail (findTagged ("ses-".data) f.data) none none none
        (findTagged_shape _ _) (by trivial) (by trivial) (by trivial),
      decodeTail_encodeTail (findTagged ("ses-".data) g.data) none none none
        (findTagged_shape _ _) (by trivial) (by trivial) (by trivial)] at hdec
    have hmatch : findTagged ("ses-".data) f.data = findTagged ("ses-".data) g.data :=
      congrArg (fun q => q.1) hdec
    rw [sesSearch, sesSearch, hmatch]

/-- Witness for the amended C8 at two PET files differing in their run
entity. -/
theorem wf_names_distinct_witness :
    petEntities "/bids/sub-01/pet/sub-01_trc-cb_run-01_pet.nii.gz" ≠
        petEntities "/bids/sub-01/pet/sub-01_trc-cb_run-02_pet.nii.gz" ∧
    petWfName "01" "/bids/sub-01/pet/sub-01_trc-cb_run-01_pet.nii.gz" ≠
      petWfName "01" "/bids/sub-01/pet/sub-01_trc-cb_run-02_pet.nii.gz" :=
  ⟨by decide,
    (wf_names_distinct "01" "" "/bids/sub-01/pet/sub-01_trc-cb_run-01_pet.nii.gz"
      "/bids/sub-01/pet/sub-01_trc-cb_run-02_pet.nii.gz").1 (by decide)⟩

theorem checkMissingT1w_eq_find (pairs : List (String × String)) :
    checkMissingT1w false pairs =
      (pairs.find? (fun q => q.2 == "")).map (fun q => missingT1wMsg q.1) := by
  induction pairs with
  | nil => rfl
  | cons q rest ih =>
    obtain ⟨pet, t1w⟩ := q
    by_cases h : t1w = ""
    · rw [checkMissingT1w, if_pos ⟨h, rfl⟩, List.find?]
      have hb : ((pet, t1w).2 == "") = true := by
        simp [h]
      rw [hb]
      rfl
    · rw [checkMissingT1w, if_neg (by simp [h]), List.find?]
      have hb : ((pet, t1w).2 == "") = false := by
        simp [h]
      rw [hb]
      exact ih

/-- **C1** counterexample: a subject with two PET files both lacking an
anatomical match produces an aggregated error that names only the first
offending PET file; the second is named nowhere, against the claim that
every offending PET file is listed. -/
theorem missing_anat_not_all_named :
    deface false [("01", [("petA", ""), ("petB", "")])] =
        .errorBeforeRun [missingT1wMsg "petA"] ∧
    missingT1wMsg "petB" ∉
      defaceMissingFileErrors false [("01", [("petA", ""), ("petB", "")])] := by
  refine ⟨by decide, by decide⟩

/-- **C1** (amended): if any PET file of an included subject maps to the
empty sentinel and no synthetic-anatomical mode is configured, `deface`
raises a single aggregated missing-anatomical error before any workflow
task executes, containing one message per offending subject which names
that subject's first PET file lacking an anatomical match. -/
theorem missing_anat_aggregated (subjects : List (String × List (String × String)))
    (hexists : ∃ s ∈ subjects, ∃ p ∈ s.2, p.2 = "") :
    deface false subjects =
        .errorBeforeRun (defaceMissingFileErrors false subjects) ∧
    defaceMissingFileErrors false subjects ≠ [] ∧
    ∀ s ∈ subjects, ∀ p : String × String,
      s.2.find? (fun q => q.2 == "") = some p →
      missingT1wMsg p.1 ∈ defaceMissingFileErrors false subjects := by
  obtain ⟨s₀, hs₀, p₀, hp₀, hval₀⟩ := hexists
  have hfind : (s₀.2.find? (fun q => q.2 == "")).isSome := by
    rw [List.find?_isSome]
    exact ⟨p₀, hp₀, by simp [hval₀]⟩
  obtain ⟨q₀, hq₀⟩ := Option.isSome_iff_exists.mp hfind
  have hmem : missingT1wMsg q₀.1 ∈ defaceMissingFileErrors false subjects := by
    rw [defaceMissingFileErrors, List.mem_filterMap]
    exact ⟨s₀, hs₀, by rw [checkMissingT1w_eq_find, hq₀]; rfl⟩
  have hne : defaceMissingFileErrors false subjects ≠ [] :=
    List.ne_nil_of_mem hmem
  refine ⟨?_, hne, ?_⟩
  · rw [deface]
    simp only [if_neg hne]
  · intro s hs p hp
    rw [defaceMissingFileErrors, List.mem_filterMap]
    exact ⟨s, hs, by rw [checkMissingT1w_eq_find, hp]; rfl⟩

/-- Witness for the amended C1: one subject, one PET file, no anatomical
match. -/
theorem missing_anat_aggregated_witness :
    (∃ s ∈ ([("01", [("pet1", "")])] : List (String × List (String × String))),
      ∃ p ∈ s.2, p.2 = "") ∧
    (deface false [("01", [("pet1", "")])] =
        .errorBeforeRun (defaceMissingFileErrors false [("01", [("pet1", "")])]) ∧
      defaceMissingFileErrors false [("01", [("pet1", "")])] ≠ [] ∧
      ∀ s ∈ ([("01", [("pet1", "")])] : List (String × List (String × String))),
        ∀ p : String × String,
        s.2.find? (fun q => q.2 == "") = some p →
        missingT1wMsg p.1 ∈ defaceMissingFileErrors false [("01", [("pet1", "")])]) :=
  ⟨by decide, missing_anat_aggregated [("01", [("pet1", "")])] (by decide)⟩

/-- **C4** counterexample: with one session `baseline` and the include
list given in prefixed form `["ses-baseline"]`, the graph builder's
exclusion set contains `baseline` (so no task is built for it) while the
reconciliation indexer's exclusion set does not (so its raw files are
still copied): the two evaluations disagree. -/
theorem exclusion_sets_disagree :
    "baseline" ∈ sessionsToExcludeWF ["baseline"] ["ses-baseline"] [] ∧
    "baseline" ∉ excludedSessionsIndexer ["baseline"] ["ses-baseline"] [] := by
  refine ⟨by decide, by decide⟩

/-- **C4** (amended): provided the session include labels are given
without the `ses-` prefix (the form in which session labels occur in the
dataset), the session-exclusion set computed by the graph builder and the
one computed by the reconciliation indexer agree on every session label,
so a session is skipped during graph assembly exactly when its raw files
are skipped during output reconciliation. -/
theorem exclusion_sets_agree (allSessions sessionLabel sessionLabelExclude : List String)
    (hclean : ∀ l ∈ sessionLabel, strContains l "ses-" = false) :
    ∀ s : String,
      s ∈ sessionsToExcludeWF allSessions sessionLabel sessionLabelExclude ↔
        s ∈ excludedSessionsIndexer allSessions sessionLabel sessionLabelExclude := by
  intro s
  rw [sessionsToExcludeWF, excludedSessionsIndexer]
  by_cases h : sessionLabel = []
  · rw [if_neg (by simp [h]), if_neg (by simp [h])]
  · have hmap : sessionLabel.map (fun l => pyReplace l "ses-" "") = sessionLabel := by
      rw [show sessionLabel = sessionLabel.map id from (List.map_id sessionLabel).symm]
      rw [List.map_map]
      apply List.map_congr_left
      intro l hl
      show pyReplace (id l) "ses-" "" = id l
      apply String.ext
      show replaceList ("ses-".data) ("".data) l.data = l.data
      apply replaceFuel_of_no_occ _ _ _ _ (Nat.le_refl _)
      intro hinf
      have := (strContains_spec l "ses-").mpr hinf
      rw [hclean l hl] at this
      exact Bool.noConfusion this
    rw [if_pos h, if_pos h, hmap, List.mem_append, List.mem_append]
    exact or_comm

/-- Witness for the amended C4: unprefixed include label `baseline`,
explicit exclusion `extra`, sessions `baseline` and `followup`. -/
theorem exclusion_sets_agree_witness :
    (∀ l ∈ (["baseline"] : List String), strContains l "ses-" = false) ∧
    ("followup" ∈ sessionsToExcludeWF ["baseline", "followup"] ["baseline"] ["extra"] ↔
      "followup" ∈ excludedSessionsIndexer ["baseline", "followup"] ["baseline"] ["extra"]) :=
  ⟨by decide,
    exclusion_sets_agree ["baseline", "followup"] ["baseline"] ["extra"] (by decide) "followup"⟩

/-- **C6** (code bug): under `derivatives` placement `wrap_up_defacing`
is not a clean no-op.  `final_destination` is never assigned in that
branch, yet the stray-file sweep and the final log line read it
unconditionally, so the call raises UnboundLocalError whether or not the
debug variable is set; and when a distinct output directory is supplied
with `remove_existing`, that directory is deleted and recreated before
the placement branch even in `derivatives` mode. -/
theorem derivatives_mode_not_noop :
    wrapUpDefacing "/data/bids" none "derivatives" true false false false =
      { effects := [], outcome := some .unboundLocalFinalDestination } ∧
    wrapUpDefacing "/data/bids" none "derivatives" true false true false =
      { effects := [], outcome := some .unboundLocalFinalDestination } ∧
    wrapUpDefacing "/data/bids" (some "/out") "derivatives" true true false false =
      { effects := [.rmtreeOutputDir "/out", .mkdirOutputDir "/out"],
        outcome := some .unboundLocalFinalDestination } := by
  refine ⟨by decide, by decide, by decide⟩

/-- **C7** (code bug): reverting via the created-items record is exact —
on a dataset holding only the bids root and the subject directory, copy
followed by `remove_default_anat(created_items=...)` restores the
filesystem exactly.  But in subject-id mode the re-derived anatomical
target ends in `.nii` while the copy wrote `.nii.gz`, so the created
`sub-123_T1w.nii.gz` and the created `anat` directory survive removal —
only the `.json` is deleted — contradicting the claim (and the repo's own
`test_remove_default_anat_with_subject_id`). -/
theorem synthetic_cleanup_extension_mismatch :
    (copyDefaultAnatToSubject ["bids"] "123"
        { files := [], dirs := [["bids"], ["bids", "sub-123"]] }).map
      (fun r => (removeDefaultAnatCreated r.2 r.1,
        removeDefaultAnatSubjectId ["bids"] "123" r.1)) =
    some ({ files := [], dirs := [["bids"], ["bids", "sub-123"]] },
      some { files := [["bids", "sub-123", "anat", "sub-123_T1w.nii.gz"]],
             dirs := [["bids"], ["bids", "sub-123"], ["bids", "sub-123", "anat"]] }) := by
  decide

/-- **C9** counterexample: two frames of duration 10 starting at 0 and
10, with constant voxel value 2.  The code divides the integral (20) by
the gap between the two frame midpoints (10) and returns 2; dividing by
the total acquisition duration (20), as the claim states, would return 1. -/
theorem weighted_average_not_total_duration :
    weightedAverageVoxel [2, 2] [0, 10] [10, 10] = 2 ∧
    claimWeightedAverageVoxel [2, 2] [0, 10] [10, 10] = 1 ∧
    weightedAverageVoxel [2, 2] [0, 10] [10, 10] ≠
      claimWeightedAverageVoxel [2, 2] [0, 10] [10, 10] := by
  refine ⟨?_, ?_, ?_⟩ <;>
    norm_num [weightedAverageVoxel, claimWeightedAverageVoxel,
      totalAcquisitionDuration, midFrames, trapz]

theorem headD_eq_getD (l : List ℚ) : l.headD 0 = l.getD 0 0 := by
  cases l <;> rfl

theorem getLastD_eq_getD (l : List ℚ) : ∀ d : ℚ, l.getLastD d = l.getD (l.length - 1) d := by
  induction l with
  | nil => intro d; rfl
  | cons a t ih =>
    cases t with
    | nil => intro d; rfl
    | cons b t' =>
      intro d
      rw [List.getLastD_cons, ih a]
      have h1 : (b :: t').length - 1 = t'.length := by simp
      have h2 : (a :: b :: t').length - 1 = t'.length + 1 := by simp
      rw [h1, h2]
      show (b :: t').getD t'.length a = (b :: t').getD t'.length d
      have hvalid : t'.length < (b :: t').length := by simp
      rw [List.getD_eq_getElem?_getD, List.getD_eq_getElem?_getD,
        List.getElem?_eq_getElem hvalid]
      rfl

theorem trapz_eq_sum (y : List ℚ) : ∀ x : List ℚ, x.length = y.length →
    trapz y x = ∑ i ∈ Finset.range (y.length - 1),
      (x.getD (i + 1) 0 - x.getD i 0) * (y.getD i 0 + y.getD (i + 1) 0) / 2 := by
  induction y with
  | nil =>
    intro x h
    rw [trapz.eq_def]
    simp
  | cons y0 ytail ih =>
    cases ytail with
    | nil =>
      intro x h
      match x, h with
      | [x0], _ =>
        rw [trapz.eq_def]
        simp
    | cons y1 ys =>
      intro x h
      match x, h with
      | x0 :: x1 :: xs, h =>
        have hlen : (x1 :: xs).length = (y1 :: ys).length := by
          simpa using h
        have hstep : trapz (y0 :: y1 :: ys) (x0 :: x1 :: xs) =
            (x1 - x0) * (y0 + y1) / 2 + trapz (y1 :: ys) (x1 :: xs) := by
          rw [trapz.eq_def]
        rw [hstep, ih (x1 :: xs) hlen]
        have hn : (y0 :: y1 :: ys).length - 1 = ((y1 :: ys).length - 1) + 1 := by
          simp
        rw [hn, Finset.sum_range_succ']
        have hcongr : ∀ i ∈ Finset.range ((y1 :: ys).length - 1),
            ((x0 :: x1 :: xs).getD (i + 1 + 1) 0 - (x0 :: x1 :: xs).getD (i + 1) 0) *
              ((y0 :: y1 :: ys).getD (i + 1) 0 + (y0 :: y1 :: ys).getD (i + 1 + 1) 0) / 2 =
            ((x1 :: xs).getD (i + 1) 0 - (x1 :: xs).getD i 0) *
              ((y1 :: ys).getD i 0 + (y1 :: ys).getD (i + 1) 0) / 2 := by
          intro i hi
          rfl
        rw [Finset.sum_congr rfl hcongr]
        have hzero : ((x0 :: x1 :: xs).getD (0 + 1) 0 - (x0 :: x1 :: xs).getD 0 0) *
            ((y0 :: y1 :: ys).getD 0 0 + (y0 :: y1 :: ys).getD (0 + 1) 0) / 2 =
            (x1 - x0) * (y0 + y1) / 2 := rfl
        rw [hzero]
        ring

/-- **C9** (amended): the representative 3-D frame is, per voxel, the
trapezoidal-rule integral of the frame values sampled at the per-frame
midpoint times (frame start plus half the frame duration), divided by the
elapsed time between the first and the last frame midpoints —
`mid_frames[-1] - mid_frames[0]`, not the total acquisition duration. -/
theorem weighted_average_eq_trapz_sum (data framesStart framesDuration : List ℚ)
    (hs : framesStart.length = data.length)
    (hd : framesDuration.length = data.length) :
    weightedAverageVoxel data framesStart framesDuration =
      (∑ i ∈ Finset.range (data.length - 1),
        ((midFrames framesStart framesDuration).getD (i + 1) 0 -
            (midFrames framesStart framesDuration).getD i 0) *
          (data.getD i 0 + data.getD (i + 1) 0) / 2) /
        ((midFrames framesStart framesDuration).getD (data.length - 1) 0 -
          (midFrames framesStart framesDuration).getD 0 0) := by
  have hmidlen : (midFrames framesStart framesDuration).length = data.length := by
    rw [midFrames, List.length_zipWith, hs, hd, Nat.min_self]
  rw [weightedAverageVoxel, trapz_eq_sum data _ hmidlen, headD_eq_getD,
    getLastD_eq_getD _ 0, hmidlen]

/-- Witness for the amended C9 at a concrete three-frame series. -/
theorem weighted_average_eq_trapz_sum_witness :
    ([0, 4, 6] : List ℚ).length = ([1, 3, 2] : List ℚ).length ∧
    ([2, 2, 4] : List ℚ).length = ([1, 3, 2] : List ℚ).length ∧
    weightedAverageVoxel [1, 3, 2] [0, 4, 6] [2, 2, 4] =
      (∑ i ∈ Finset.range (([1, 3, 2] : List ℚ).length - 1),
        ((midFrames [0, 4, 6] [2, 2, 4]).getD (i + 1) 0 -
            (midFrames [0, 4, 6] [2, 2, 4]).getD i 0) *
          (([1, 3, 2] : List ℚ).getD i 0 + ([1, 3, 2] : List ℚ).getD (i + 1) 0) / 2) /
        ((midFrames [0, 4, 6] [2, 2, 4]).getD (([1, 3, 2] : List ℚ).length - 1) 0 -
          (midFrames [0, 4, 6] [2, 2, 4]).getD 0 0) :=
  ⟨rfl, rfl, weighted_average_eq_trapz_sum [1, 3, 2] [0, 4, 6] [2, 2, 4] rfl rfl⟩

/-- **C10**: with `move_files` at its default `False`,
`move_defaced_images` silently skips every mapping entry whose defaced
source does not exist — no error, no destination file created for it —
and copies every entry whose source exists to its computed destination:
the resulting filesystem is exactly the original plus the destinations of
the existing sources.  (The hypothesis rules out a source path aliasing
another entry's destination, which cannot happen between the derivatives
working tree and the reconciled destination tree.) -/
theorem move_defaced_skips_missing (mapping : List ((List String) × (List String)))
    (finalDest : List String) (fs : List (List String))
    (hnoalias : ∀ m ∈ mapping, ∀ m' ∈ mapping, destPath finalDest m'.1 m'.2 ≠ m.1) :
    (moveDefacedImages mapping finalDest false fs).errored = false ∧
    ∀ p : List String,
      p ∈ (moveDefacedImages mapping finalDest false fs).files ↔
        (p ∈ fs ∨ ∃ m ∈ mapping, m.1 ∈ fs ∧ destPath finalDest m.1 m.2 = p) := by
  induction mapping generalizing fs with
  | nil =>
    refine ⟨rfl, ?_⟩
    intro p
    simp [moveDefacedImages, moveDefacedLoop]
  | cons m rest ih =>
    obtain ⟨defaced, raw⟩ := m
    have hrest : ∀ m ∈ rest, ∀ m' ∈ rest, destPath finalDest m'.1 m'.2 ≠ m.1 :=
      fun m hm m' hm' =>
        hnoalias m (List.mem_cons_of_mem _ hm) m' (List.mem_cons_of_mem _ hm')
    by_cases hex : defaced ∈ fs
    · have hloop : moveDefacedImages ((defaced, raw) :: rest) finalDest false fs =
          moveDefacedImages rest finalDest false
            (fs ++ [destPath finalDest defaced raw]) := by
        show moveDefacedLoop finalDest false ((defaced, raw) :: rest) fs = _
        rw [moveDefacedLoop]
        simp only [if_pos hex, if_neg (Bool.false_ne_true)]
        rfl
      obtain ⟨iherr, ihmem⟩ := ih (fs ++ [destPath finalDest defaced raw]) hrest
      refine ⟨by rw [hloop]; exact iherr, ?_⟩
      intro p
      rw [hloop, ihmem p]
      constructor
      · rintro (hp | ⟨m, hm, hmfs, hmdest⟩)
        · rcases List.mem_append.mp hp with hp | hp
          · exact Or.inl hp
          · refine Or.inr ⟨(defaced, raw), List.mem_cons_self _ _, hex, ?_⟩
            cases List.mem_singleton.mp hp
            rfl
        · rcases List.mem_append.mp hmfs with hmfs | hmfs
          · exact Or.inr ⟨m, List.mem_cons_of_mem _ hm, hmfs, hmdest⟩
          · exact absurd (List.mem_singleton.mp hmfs).symm
              (hnoalias m (List.mem_cons_of_mem _ hm) (defaced, raw)
                (List.mem_cons_self _ _))
      · rintro (hp | ⟨m, hm, hmfs, hmdest⟩)
        · exact Or.inl (List.mem_append.mpr (Or.inl hp))
        · rcases List.mem_cons.mp hm with hm | hm
          · subst hm
            rw [← hmdest]
            exact Or.inl (List.mem_append.mpr (Or.inr (List.mem_singleton.mpr rfl)))
          · exact Or.inr ⟨m, hm, List.mem_append.mpr (Or.inl hmfs), hmdest⟩
    · have hloop : moveDefacedImages ((defaced, raw) :: rest) finalDest false fs =
          moveDefacedImages rest finalDest false fs := by
        show moveDefacedLoop finalDest false ((defaced, raw) :: rest) fs = _
        rw [moveDefacedLoop]
        simp only [if_neg hex, if_neg (Bool.false_ne_true)]
        rfl
      obtain ⟨iherr, ihmem⟩ := ih fs hrest
      refine ⟨by rw [hloop]; exact iherr, ?_⟩
      intro p
      rw [hloop, ihmem p]
      constructor
      · rintro (hp | ⟨m, hm, hmfs, hmdest⟩)
        · exact Or.inl hp
        · exact Or.inr ⟨m, List.mem_cons_of_mem _ hm, hmfs, hmdest⟩
      · rintro (hp | ⟨m, hm, hmfs, hmdest⟩)
        · exact Or.inl hp
        · rcases List.mem_cons.mp hm with hm | hm
          · subst hm
            exact absurd hmfs hex
          · exact Or.inr ⟨m, hm, hmfs, hmdest⟩

/-- Witness for C10: two mapping entries, one whose defaced source exists
and one whose source is missing; the skipped entry's destination is not
created and no error is raised. -/
theorem move_defaced_skips_missing_witness :
    (∀ m ∈ ([(["work", "sub-01_T1w_defaced.nii.gz"], ["bids", "sub-01_T1w.nii.gz"]),
        (["work", "sub-01_pet_defaced.nii.gz"], ["bids", "sub-01_pet.nii.gz"])] :
          List ((List String) × (List String))),
      ∀ m' ∈ ([(["work", "sub-01_T1w_defaced.nii.gz"], ["bids", "sub-01_T1w.nii.gz"]),
        (["work", "sub-01_pet_defaced.nii.gz"], ["bids", "sub-01_pet.nii.gz"])] :
          List ((List String) × (List String))),
        destPath ["out"] m'.1 m'.2 ≠ m.1) ∧
    (moveDefacedImages
        [(["work", "sub-01_T1w_defaced.nii.gz"], ["bids", "sub-01_T1w.nii.gz"]),
          (["work", "sub-01_pet_defaced.nii.gz"], ["bids", "sub-01_pet.nii.gz"])]
        ["out"] false [["work", "sub-01_T1w_defaced.nii.gz"]]).errored = false ∧
    ((["out", "sub-01_pet.nii.gz"] : List String) ∈
        (moveDefacedImages
          [(["work", "sub-01_T1w_defaced.nii.gz"], ["bids", "sub-01_T1w.nii.gz"]),
            (["work", "sub-01_pet_defaced.nii.gz"], ["bids", "sub-01_pet.nii.gz"])]
          ["out"] false [["work", "sub-01_T1w_defaced.nii.gz"]]).files ↔
      ((["out", "sub-01_pet.nii.gz"] : List String) ∈
          [["work", "sub-01_T1w_defaced.nii.gz"]] ∨
        ∃ m ∈ ([(["work", "sub-01_T1w_defaced.nii.gz"], ["bids", "sub-01_T1w.nii.gz"]),
          (["work", "sub-01_pet_defaced.nii.gz"], ["bids", "sub-01_pet.nii.gz"])] :
            List ((List String) × (List String))),
          m.1 ∈ [["work", "sub-01_T1w_defaced.nii.gz"]] ∧
          destPath ["out"] m.1 m.2 = ["out", "sub-01_pet.nii.gz"])) :=
  ⟨by decide,
    (move_defaced_skips_missing
      [(["work", "sub-01_T1w_defaced.nii.gz"], ["bids", "sub-01_T1w.nii.gz"]),
        (["work", "sub-01_pet_defaced.nii.gz"], ["bids", "sub-01_pet.nii.gz"])]
      ["out"] [["work", "sub-01_T1w_defaced.nii.gz"]] (by decide)).1,
    (move_defaced_skips_missing
      [(["work", "sub-01_T1w_defaced.nii.gz"], ["bids", "sub-01_T1w.nii.gz"]),
        (["work", "sub-01_pet_defaced.nii.gz"], ["bids", "sub-01_pet.nii.gz"])]
      ["out"] [["work", "sub-01_T1w_defaced.nii.gz"]] (by decide)).2
      ["out", "sub-01_pet.nii.gz"]⟩

end PetDefaceProof
